import Mathlib

/-!
Verification of the TurboVets task-management core against its code.

The definitions below are shallow embeddings of the TypeScript sources:
  * `generatePosition`        — client/src/components/tasks/kanban-board.tsx
  * `reorderTask`             — server/storage.ts (DatabaseStorage.reorderTask)
  * `notifyTaskComment` etc.  — the NotificationService (handleMentions and friends)
  * `addConnection`, `removeConnection`, `sendNotificationToUser`, `handleConnection`
                              — server/websocket.ts (WebSocketManager)
JS strings are modelled as Lean `String` (lists of characters; all keys and
messages involved are ASCII, where JS UTF-16 semantics and codepoint semantics
agree), JS numbers in the relevant code paths are naturals, and JS `parseInt`
/ `||` / `padStart` are modelled explicitly below.
-/

namespace TurboVets

/-- Lexicographic comparison of character lists by code point.  On the ASCII
strings occurring here this is exactly JS `a.localeCompare(b) < 0` (the order
the kanban board sorts position keys by) and Lean's `String` order. -/
def lexLtB : List Char → List Char → Bool
  | _, [] => false
  | [], _ :: _ => true
  | a :: as, b :: bs =>
    if a.toNat < b.toNat then true
    else if b.toNat < a.toNat then false
    else lexLtB as bs

/-- Strict lexicographic order on strings (code-point order). -/
def strLt (s t : String) : Prop := lexLtB s.data t.data = true

instance (s t : String) : Decidable (strLt s t) := by
  unfold strLt; infer_instance

/-- Decimal digit character (`'0'`–`'9'` for `d ≤ 9`). -/
def digitCh (d : Nat) : Char := Char.ofNat (48 + d)

/-- Whether `c` is a decimal digit (`'0'` ≤ c ≤ `'9'`, by code point). -/
def isDigitCh (c : Char) : Bool := 48 ≤ c.toNat && c.toNat ≤ 57

/-- Decimal digit string, fuel-based so that it reduces definitionally; the
fuel is always sufficient at `natDigits` below (each division by ten consumes
one unit of fuel and `n < 10 ^ n.succ`). -/
def natDigitsF : Nat → Nat → List Char
  | 0, _ => []
  | fuel + 1, n =>
    if n < 10 then [digitCh n]
    else natDigitsF fuel (n / 10) ++ [digitCh (n % 10)]

/-- Decimal digit string of a natural number, most significant digit first:
the character list of JS `String(n)`. -/
def natDigits (n : Nat) : List Char := natDigitsF (n + 1) n

/-- JS `String(n)` for a natural number. -/
def natToString (n : Nat) : String := String.mk (natDigits n)

/-- JS `parseInt(s, 10)` restricted to the shapes that occur here: parse the
longest prefix of decimal digits; `none` models `NaN` (no leading digit). -/
def parseIntJS (s : String) : Option Nat :=
  let ds := s.data.takeWhile isDigitCh
  if ds.isEmpty then none
  else some (ds.foldl (fun a c => a * 10 + (c.toNat - 48)) 0)

/-- JS `x || d` on an optional number: both `NaN` (`none`) and `0` are falsy. -/
def jsOrNum (v : Option Nat) (d : Nat) : Nat :=
  match v with
  | none => d
  | some 0 => d
  | some n => n

/-- JS `String(n).padStart(4, '0')`. -/
def padStart4 (n : Nat) : String :=
  let s := natToString n
  String.mk (List.replicate (4 - s.length) '0') ++ s

/-- JS `s.slice(n)` (drop the first `n` characters). -/
def sliceFrom (s : String) (n : Nat) : String :=
  String.mk (s.data.drop n)

/-- `generatePosition` from kanban-board.tsx, applied to the already
filtered-and-sorted list of position keys of the target column and the drop
index `overIndex`.  Mirrors the three branches of the source (insert at
beginning / at end / between two positions), including the `|| default`
fallbacks on element access and on `parseInt` results. -/
def generatePosition (sortedPositions : List String) (overIndex : Nat) : String :=
  if overIndex = 0 then
    let firstPos := sortedPositions.head?.getD "b0000"
    let firstNum := jsOrNum (parseIntJS (sliceFrom firstPos 1)) 1000
    let newNum := max (firstNum - 1000) 0
    "a" ++ padStart4 newNum
  else if overIndex ≥ sortedPositions.length then
    let lastPos := sortedPositions.getLast?.getD "a0000"
    let lastNum := jsOrNum (parseIntJS (sliceFrom lastPos 1)) 0
    let newNum := lastNum + 1000
    "a" ++ padStart4 newNum
  else
    let beforePos := (sortedPositions.get? (overIndex - 1)).getD "a0000"
    let afterPos := (sortedPositions.get? overIndex).getD "a2000"
    let beforeNum := jsOrNum (parseIntJS (sliceFrom beforePos 1)) 0
    let afterNum := jsOrNum (parseIntJS (sliceFrom afterPos 1)) 2000
    let newNum := (beforeNum + afterNum) / 2
    "a" ++ padStart4 newNum

/-! ### Facts about decimal digit strings and the lexicographic order -/

/-- Numeric value of a digit string (the fold used by `parseIntJS`). -/
def digitsVal (l : List Char) : Nat :=
  l.foldl (fun a c => a * 10 + (c.toNat - 48)) 0

/-- All characters of `l` are decimal digits. -/
def IsDigits (l : List Char) : Prop := ∀ c ∈ l, 48 ≤ c.toNat ∧ c.toNat ≤ 57

lemma digitCh_toNat : ∀ d, d < 10 → (digitCh d).toNat = 48 + d := by decide

lemma digitsVal_foldl (l : List Char) (acc : Nat) :
    l.foldl (fun a c => a * 10 + (c.toNat - 48)) acc
      = acc * 10 ^ l.length + digitsVal l := by
  induction l generalizing acc with
  | nil => simp [digitsVal]
  | cons c l ih =>
    simp only [digitsVal, List.foldl_cons, List.length_cons]
    rw [ih (acc * 10 + (c.toNat - 48)), ih (0 * 10 + (c.toNat - 48))]
    ring

lemma digitsVal_cons (c : Char) (l : List Char) :
    digitsVal (c :: l) = (c.toNat - 48) * 10 ^ l.length + digitsVal l := by
  have := digitsVal_foldl l (0 * 10 + (c.toNat - 48))
  simpa [digitsVal] using this

lemma digitsVal_lt (l : List Char) (h : IsDigits l) :
    digitsVal l < 10 ^ l.length := by
  induction l with
  | nil => simp [digitsVal]
  | cons c l ih =>
    have hc := h c (List.mem_cons_self _ _)
    have hl : IsDigits l := fun d hd => h d (List.mem_cons_of_mem _ hd)
    have hv := ih hl
    rw [digitsVal_cons, List.length_cons, pow_succ]
    have hd9 : c.toNat - 48 ≤ 9 := by omega
    have := Nat.mul_le_mul_right (10 ^ l.length) hd9
    have hp : 0 < 10 ^ l.length := Nat.pos_pow_of_pos _ (by omega)
    nlinarith

lemma lexLtB_of_val_lt :
    ∀ ds es : List Char, IsDigits ds → IsDigits es → ds.length = es.length →
      digitsVal ds < digitsVal es → lexLtB ds es = true := by
  intro ds
  induction ds with
  | nil =>
    intro es _ _ hlen hv
    cases es with
    | nil => simp [digitsVal] at hv
    | cons b bs => simp at hlen
  | cons a as ih =>
    intro es hd he hlen hv
    cases es with
    | nil => simp at hlen
    | cons b bs =>
      have ha := hd a (List.mem_cons_self _ _)
      have hb := he b (List.mem_cons_self _ _)
      have has : IsDigits as := fun c hc => hd c (List.mem_cons_of_mem _ hc)
      have hbs : IsDigits bs := fun c hc => he c (List.mem_cons_of_mem _ hc)
      have hlen' : as.length = bs.length := by simpa using hlen
      by_cases h1 : a.toNat < b.toNat
      · simp [lexLtB, h1]
      · by_cases h2 : b.toNat < a.toNat
        · exfalso
          rw [digitsVal_cons, digitsVal_cons, hlen'] at hv
          have hvb := digitsVal_lt bs hbs
          have hda : b.toNat - 48 + 1 ≤ a.toNat - 48 := by omega
          have := Nat.mul_le_mul_right (10 ^ bs.length) hda
          have hp : 0 < 10 ^ bs.length := Nat.pos_pow_of_pos _ (by omega)
          nlinarith
        · have heq : a.toNat = b.toNat := by omega
          have hv' : digitsVal as < digitsVal bs := by
            rw [digitsVal_cons, digitsVal_cons, hlen', heq] at hv
            omega
          simp only [lexLtB, if_neg h1, if_neg h2]
          exact ih bs has hbs hlen' hv'

lemma div10_lt_pow {fuel n : Nat} (h : n < 10 ^ (fuel + 1)) : n / 10 < 10 ^ fuel := by
  rw [Nat.div_lt_iff_lt_mul (by omega)]
  calc n < 10 ^ (fuel + 1) := h
    _ = 10 ^ fuel * 10 := by ring

lemma natDigitsF_isDigits : ∀ fuel n, n < 10 ^ fuel → IsDigits (natDigitsF fuel n) := by
  intro fuel
  induction fuel with
  | zero => intro n h c hc; simp [natDigitsF] at hc
  | succ fuel ih =>
    intro n h c hc
    by_cases hn : n < 10
    · simp only [natDigitsF, if_pos hn, List.mem_singleton] at hc
      subst hc
      rw [digitCh_toNat n hn]
      omega
    · simp only [natDigitsF, if_neg hn, List.mem_append, List.mem_singleton] at hc
      rcases hc with hc | hc
      · exact ih (n / 10) (div10_lt_pow h) c hc
      · subst hc
        rw [digitCh_toNat (n % 10) (Nat.mod_lt _ (by omega))]
        omega

lemma natDigitsF_val : ∀ fuel n, n < 10 ^ fuel → digitsVal (natDigitsF fuel n) = n := by
  intro fuel
  induction fuel with
  | zero => intro n h; interval_cases n; simp [natDigitsF, digitsVal]
  | succ fuel ih =>
    intro n h
    by_cases hn : n < 10
    · simp only [natDigitsF, if_pos hn]
      simp [digitsVal, digitCh_toNat n hn]
    · simp only [natDigitsF, if_neg hn]
      rw [digitsVal, List.foldl_append]
      have hmain : (natDigitsF fuel (n / 10)).foldl (fun a c => a * 10 + (c.toNat - 48)) 0
          = n / 10 := ih (n / 10) (div10_lt_pow h)
      rw [hmain]
      simp only [List.foldl_cons, List.foldl_nil]
      rw [digitCh_toNat (n % 10) (Nat.mod_lt _ (by omega))]
      omega

lemma natDigitsF_length : ∀ fuel n, n < 10 ^ fuel → (natDigitsF fuel n).length ≤ fuel := by
  intro fuel
  induction fuel with
  | zero => intro n h; simp [natDigitsF]
  | succ fuel ih =>
    intro n h
    by_cases hn : n < 10
    · simp [natDigitsF, if_pos hn]
    · simp only [natDigitsF, if_neg hn, List.length_append, List.length_singleton]
      have := ih (n / 10) (div10_lt_pow h)
      omega

lemma natDigitsF_ne_nil : ∀ fuel n, 1 ≤ fuel → natDigitsF fuel n ≠ [] := by
  intro fuel n h
  cases fuel with
  | zero => omega
  | succ fuel =>
    by_cases hn : n < 10
    · simp [natDigitsF, if_pos hn]
    · simp [natDigitsF, if_neg hn]

lemma natDigitsF_irrel : ∀ f f' n, 1 ≤ f → 1 ≤ f' → n < 10 ^ f → n < 10 ^ f' →
    natDigitsF f n = natDigitsF f' n := by
  intro f
  induction f with
  | zero => intro f' n h; omega
  | succ f ih =>
    intro f' n _ hf' hn hn'
    cases f' with
    | zero => omega
    | succ f' =>
      by_cases h10 : n < 10
      · simp [natDigitsF, if_pos h10]
      · simp only [natDigitsF, if_neg h10]
        have hge : 10 ≤ n := by omega
        have hf1 : 1 ≤ f := by
          by_contra hc
          have : f = 0 := by omega
          subst this
          simp at hn
          omega
        have hf'1 : 1 ≤ f' := by
          by_contra hc
          have : f' = 0 := by omega
          subst this
          simp at hn'
          omega
        rw [ih f' (n / 10) hf1 hf'1 (div10_lt_pow hn) (div10_lt_pow hn')]

lemma lt_pow10_succ (n : Nat) : n < 10 ^ (n + 1) := by
  calc n < 2 ^ n := Nat.lt_two_pow n
    _ ≤ 10 ^ n := Nat.pow_le_pow_left (by omega) n
    _ ≤ 10 ^ (n + 1) := Nat.pow_le_pow_right (by omega) (by omega)

/-- For the key range actually in play (`n ≤ 9999`) the digit string of `n`
is `natDigitsF 4 n`. -/
lemma natDigits_eq_four {n : Nat} (h : n ≤ 9999) : natDigits n = natDigitsF 4 n :=
  natDigitsF_irrel (n + 1) 4 n (by omega) (by omega) (lt_pow10_succ n) (by omega)

lemma natDigits_isDigits (n : Nat) : IsDigits (natDigits n) :=
  natDigitsF_isDigits (n + 1) n (lt_pow10_succ n)

lemma natDigits_val (n : Nat) : digitsVal (natDigits n) = n :=
  natDigitsF_val (n + 1) n (lt_pow10_succ n)

lemma natDigits_ne_nil (n : Nat) : natDigits n ≠ [] :=
  natDigitsF_ne_nil (n + 1) n (by omega)

lemma natDigits_length_le {n : Nat} (h : n ≤ 9999) : (natDigits n).length ≤ 4 := by
  rw [natDigits_eq_four h]
  exact natDigitsF_length 4 n (by omega)

/-! ### The padded keys `'a' ++ padStart4 n` -/

lemma padStart4_data (n : Nat) :
    (padStart4 n).data = List.replicate (4 - (natDigits n).length) '0' ++ natDigits n := rfl

lemma padStart4_isDigits (n : Nat) : IsDigits (padStart4 n).data := by
  rw [padStart4_data]
  intro c hc
  rcases List.mem_append.1 hc with hc | hc
  · rw [List.eq_of_mem_replicate hc]
    decide
  · exact natDigits_isDigits n c hc

lemma foldl_zeros (k : Nat) :
    (List.replicate k '0').foldl (fun a c => a * 10 + (c.toNat - 48)) 0 = 0 := by
  induction k with
  | zero => rfl
  | succ k ih =>
    rw [List.replicate_succ, List.foldl_cons]
    simpa using ih

lemma padStart4_val (n : Nat) : digitsVal (padStart4 n).data = n := by
  rw [padStart4_data, digitsVal, List.foldl_append, foldl_zeros]
  exact natDigits_val n

lemma padStart4_length {n : Nat} (h : n ≤ 9999) : (padStart4 n).data.length = 4 := by
  rw [padStart4_data, List.length_append, List.length_replicate]
  have := natDigits_length_le h
  omega

lemma key_data (n : Nat) : ("a" ++ padStart4 n).data = 'a' :: (padStart4 n).data := rfl

/-- Monotonicity of the allocator's keys: for numeric segments within the
four-digit range, numeric order agrees with lexicographic order of the
generated `'a'`-prefixed keys. -/
lemma key_lt {m n : Nat} (hmn : m < n) (hn : n ≤ 9999) :
    strLt ("a" ++ padStart4 m) ("a" ++ padStart4 n) := by
  unfold strLt
  rw [key_data, key_data]
  simp only [lexLtB, if_neg (lt_irrefl 'a'.toNat)]
  apply lexLtB_of_val_lt _ _ (padStart4_isDigits m) (padStart4_isDigits n)
  · rw [padStart4_length (by omega), padStart4_length hn]
  · rw [padStart4_val, padStart4_val]
    exact hmn

lemma takeWhile_all {p : Char → Bool} :
    ∀ l : List Char, (∀ c ∈ l, p c = true) → l.takeWhile p = l := by
  intro l
  induction l with
  | nil => intro _; rfl
  | cons c l ih =>
    intro h
    rw [List.takeWhile_cons, h c (List.mem_cons_self _ _)]
    simp [ih fun d hd => h d (List.mem_cons_of_mem _ hd)]

lemma parseIntJS_padStart4 (n : Nat) : parseIntJS (padStart4 n) = some n := by
  unfold parseIntJS
  have hdig : ∀ c ∈ (padStart4 n).data, isDigitCh c = true := by
    intro c hc
    have := padStart4_isDigits n c hc
    simp only [isDigitCh, Bool.and_eq_true, decide_eq_true_eq]
    omega
  rw [takeWhile_all _ hdig]
  have hne : (padStart4 n).data ≠ [] := by
    rw [padStart4_data]
    intro h
    exact natDigits_ne_nil n (List.append_eq_nil.1 h).2
  rw [if_neg (by simpa [List.isEmpty_iff] using hne)]
  exact congrArg some (padStart4_val n)

lemma jsOrNum_some_zero (n : Nat) : jsOrNum (some n) 0 = n := by
  cases n <;> rfl

lemma jsOrNum_some_of_ne {n : Nat} (d : Nat) (h : n ≠ 0) : jsOrNum (some n) d = n := by
  cases n with
  | zero => omega
  | succ k => rfl

lemma sliceFrom_key (n : Nat) : sliceFrom ("a" ++ padStart4 n) 1 = padStart4 n := rfl

example : natToString 0 = "0" := by decide
example : natToString 907 = "907" := by decide
example : padStart4 12 = "0012" := by decide
example : padStart4 10500 = "10500" := by decide
example : parseIntJS "0012" = some 12 := by decide
example : parseIntJS "" = none := by decide
example : generatePosition ["a0000", "a0001"] 1 = "a0000" := by decide
example : generatePosition ["a0000"] 0 = "a0000" := by decide
example : generatePosition ["a0500"] 0 = "a0000" := by decide
example : generatePosition ["a9000"] 1 = "a10000" := by decide
example : generatePosition ["a0000", "a2000"] 1 = "a1000" := by decide
example : ¬ strLt "a9000" "a10000" := by decide
example : strLt "a10000" "a9000" := by decide

/-- Claim C2, counterexample: the keys `k1 = "a0000" < k2 = "a0001"` are
adjacent in numeric value, and the insert-between computation returns
`"a0000" = k1`, which is not strictly greater than `k1`.  So the midpoint is
not always strictly between the two neighbouring keys. -/
theorem generatePosition_between_cex :
    strLt "a0000" "a0001" ∧
    generatePosition ["a0000", "a0001"] 1 = "a0000" ∧
    ¬ strLt "a0000" (generatePosition ["a0000", "a0001"] 1) := by
  decide

/-- Claim C2 (amended): for two adjacent column keys `k1 = 'a' ++ pad4 n1` and
`k2 = 'a' ++ pad4 n2` whose numeric segments satisfy `n1 + 2 ≤ n2 ≤ 9999`, the
insert-between branch of `generatePosition` (arithmetic midpoint of the two
numeric segments) returns a key strictly between `k1` and `k2`
lexicographically.  (The counterexample above shows the extra hypotheses are
needed: a gap of less than two exhausts the precision of integer midpoints.) -/
theorem generatePosition_between (xs : List String) (i n1 n2 : Nat)
    (hi0 : i ≠ 0) (hilen : i < xs.length)
    (hb : xs.get? (i - 1) = some ("a" ++ padStart4 n1))
    (ha : xs.get? i = some ("a" ++ padStart4 n2))
    (hgap : n1 + 2 ≤ n2) (h2 : n2 ≤ 9999) :
    strLt ("a" ++ padStart4 n1) (generatePosition xs i) ∧
    strLt (generatePosition xs i) ("a" ++ padStart4 n2) := by
  unfold generatePosition
  rw [if_neg hi0, if_neg (by omega : ¬ i ≥ xs.length)]
  simp only [hb, ha, Option.getD_some, sliceFrom_key, parseIntJS_padStart4]
  rw [jsOrNum_some_zero, jsOrNum_some_of_ne 2000 (by omega)]
  constructor
  · exact key_lt (by omega) (by omega)
  · exact key_lt (by omega) h2

/-- Witness for C2 (amended) at `k1 = "a0000"`, `k2 = "a0002"`. -/
theorem generatePosition_between_witness :
    (["a0000", "a0002"] : List String).get? 0 = some ("a" ++ padStart4 0) ∧
    (["a0000", "a0002"] : List String).get? 1 = some ("a" ++ padStart4 2) ∧
    (strLt ("a" ++ padStart4 0) (generatePosition ["a0000", "a0002"] 1) ∧
     strLt (generatePosition ["a0000", "a0002"] 1) ("a" ++ padStart4 2)) :=
  ⟨by decide, by decide,
    generatePosition_between ["a0000", "a0002"] 1 0 2 (by decide) (by decide)
      (by decide) (by decide) (by decide) (by decide)⟩

/-- Claim C3, counterexample: allocating at the start above the key `"a0000"`
returns `"a0000"` itself (the `parseInt(..) || 1000` fallback treats the
numeric segment `0` as falsy, and the subtraction is floored at 0), which is
not strictly less; allocating at the end after `"a9000"` returns `"a10000"`,
which is lexicographically *smaller* than `"a9000"` because the numeric
segment overflows the four-digit padding. -/
theorem generatePosition_boundary_cex :
    generatePosition ["a0000"] 0 = "a0000" ∧
    ¬ strLt (generatePosition ["a0000"] 0) "a0000" ∧
    generatePosition ["a9000"] 1 = "a10000" ∧
    ¬ strLt "a9000" (generatePosition ["a9000"] 1) := by
  decide

/-- Claim C3 (amended): allocating at the start below the first key
`'a' ++ pad4 n` returns a strictly smaller key provided `1 ≤ n ≤ 9999`
(at `n = 0` it returns the key itself), and allocating at the end above the
last key `'a' ++ pad4 n` returns a strictly greater key provided
`n + 1000 ≤ 9999` (beyond that the numeric segment spills past four digits
and lexicographic order breaks).  Repeating an allocation at the same
boundary re-applies these single-step facts, so the generated keys stay
strictly ordered exactly while these numeric-segment bounds hold. -/
theorem generatePosition_boundary (xs : List String) (n : Nat) :
    (xs.head? = some ("a" ++ padStart4 n) → 1 ≤ n → n ≤ 9999 →
      strLt (generatePosition xs 0) ("a" ++ padStart4 n)) ∧
    (xs ≠ [] → xs.getLast? = some ("a" ++ padStart4 n) → n + 1000 ≤ 9999 →
      strLt ("a" ++ padStart4 n) (generatePosition xs xs.length)) := by
  constructor
  · intro hhead h1 h9
    unfold generatePosition
    rw [if_pos rfl]
    simp only [hhead, Option.getD_some, sliceFrom_key, parseIntJS_padStart4]
    rw [jsOrNum_some_of_ne 1000 (by omega), Nat.max_eq_left (Nat.zero_le _)]
    exact key_lt (by omega) h9
  · intro hne hlast h9
    unfold generatePosition
    rw [if_neg (fun h => hne (List.length_eq_zero.1 h)),
      if_pos (le_refl xs.length)]
    simp only [hlast, Option.getD_some, sliceFrom_key, parseIntJS_padStart4]
    rw [jsOrNum_some_zero]
    exact key_lt (by omega) h9

/-- Witness for C3 (amended) at the key `"a1000"`. -/
theorem generatePosition_boundary_witness :
    (["a1000"] : List String).head? = some ("a" ++ padStart4 1000) ∧
    (["a1000"] : List String).getLast? = some ("a" ++ padStart4 1000) ∧
    strLt (generatePosition ["a1000"] 0) ("a" ++ padStart4 1000) ∧
    strLt ("a" ++ padStart4 1000) (generatePosition ["a1000"] 1) :=
  ⟨by decide, by decide,
    (generatePosition_boundary ["a1000"] 1000).1 (by decide) (by decide) (by decide),
    (generatePosition_boundary ["a1000"] 1000).2 (by decide) (by decide) (by decide)⟩

/-! ### Tasks and `DatabaseStorage.reorderTask` (server/storage.ts) -/

/-- A row of the `tasks` table (shared/schema.ts).  Timestamps are naturals,
nullable columns are `Option`. -/
structure Task where
  id : String
  title : String
  description : Option String
  status : String
  priority : String
  category : Option String
  position : String
  assigneeId : Option String
  creatorId : String
  organizationId : String
  dueDate : Option Nat
  completedAt : Option Nat
  createdAt : Nat
  updatedAt : Nat
deriving DecidableEq

/-- `DatabaseStorage.reorderTask`: builds `updates = { position, updatedAt }`;
only when `newStatus` is JS-truthy (present and non-empty) it also sets
`status` and sets/clears `completedAt` depending on whether the new status is
`"done"`; then applies the updates to the row.  `now` models `new Date()`. -/
def reorderTask (task : Task) (newPosition : String) (newStatus : Option String)
    (now : Nat) : Task :=
  let base := { task with position := newPosition, updatedAt := now }
  match newStatus with
  | some s =>
    if s = "" then base
    else { base with status := s,
                     completedAt := if s = "done" then some now else none }
  | none => base

/-- Claim C8: a reorder that supplies `newStatus = "done"` sets the task's
completion timestamp to the current time, and a subsequent reorder that
supplies a non-"done" status (one of the other two statuses of the schema's
`task_status` enum) clears it to absent. -/
theorem reorderTask_done_timestamp (t : Task) (p p' : String) (now now' : Nat)
    (s : String) (hs : s = "todo" ∨ s = "in_progress") :
    (reorderTask t p (some "done") now).completedAt = some now ∧
    (reorderTask (reorderTask t p (some "done") now) p' (some s) now').completedAt
      = none := by
  rcases hs with h | h <;> subst h <;> exact ⟨rfl, rfl⟩

/-- A concrete task record used by witnesses. -/
def task0 : Task :=
  { id := "t1", title := "Write report", description := none, status := "todo",
    priority := "medium", category := none, position := "a0",
    assigneeId := none, creatorId := "u1", organizationId := "o1",
    dueDate := none, completedAt := none, createdAt := 0, updatedAt := 0 }

/-- Witness for C8 at a concrete task. -/
theorem reorderTask_done_timestamp_witness :
    ("todo" = "todo" ∨ "todo" = "in_progress") ∧
    ((reorderTask task0 "a1000" (some "done") 5).completedAt = some 5 ∧
     (reorderTask (reorderTask task0 "a1000" (some "done") 5) "a2000"
        (some "todo") 6).completedAt = none) :=
  ⟨Or.inl rfl,
    reorderTask_done_timestamp task0 "a1000" "a2000" 5 6 "todo" (Or.inl rfl)⟩

/-- Claim C10: a reorder without `newStatus` writes only `position` and
`updatedAt`; in particular `status` and `completedAt` are untouched, so
reordering inside the "done" column keeps the completion timestamp. -/
theorem reorderTask_frame (t : Task) (p : String) (now : Nat) :
    reorderTask t p none now = { t with position := p, updatedAt := now } ∧
    (reorderTask t p none now).status = t.status ∧
    (reorderTask t p none now).completedAt = t.completedAt :=
  ⟨rfl, rfl, rfl⟩

/-! ### Users, notifications, storage environment (shared/schema.ts, server/storage.ts) -/

/-- A row of the `users` table; only the fields the core reads. -/
structure User where
  id : String
  email : Option String
  firstName : String
  lastName : String
  role : String
  organizationId : Option String
deriving DecidableEq

/-- The insert shape of a `notifications` row (`InsertNotification`), which is
what `storage.createNotification` persists. -/
structure Notification where
  userId : String
  type : String
  title : String
  message : String
  isRead : Bool
  taskId : Option String
  triggeredByUserId : String
  organizationId : String
deriving DecidableEq

/-- The relational store consumed by the notification service. -/
structure Storage where
  users : List User
  tasks : List Task
deriving DecidableEq

/-- `storage.getTask`. -/
def getTask (st : Storage) (taskId : String) : Option Task :=
  st.tasks.find? (fun t => t.id == taskId)

/-- `storage.getUserById`. -/
def getUserById (st : Storage) (userId : String) : Option User :=
  st.users.find? (fun u => u.id == userId)

/-- `storage.getUsersInOrganization`. -/
def getUsersInOrganization (st : Storage) (organizationId : String) : List User :=
  st.users.filter (fun u => u.organizationId == some organizationId)

/-! ### NotificationService mention handling -/

/-- JS `\w` character class: `[A-Za-z0-9_]`. -/
def isWordChar (c : Char) : Bool :=
  (48 ≤ c.toNat && c.toNat ≤ 57) || (65 ≤ c.toNat && c.toNat ≤ 90) ||
    (97 ≤ c.toNat && c.toNat ≤ 122) || c.toNat == 95

/-- Successive matches of the mention regex `@(?:"([^\x22]+)"|(\w+))` over a
character list, returning the captured token of each match in order.  Fuel
counts remaining scan positions: every step consumes at least one character
and one unit of fuel, so fuel = input length is always sufficient. -/
def scanMentionsF : Nat → List Char → List String
  | 0, _ => []
  | _ + 1, [] => []
  | fuel + 1, '@' :: '"' :: rest =>
    let inner := rest.takeWhile (fun c => c != '"')
    let after := rest.dropWhile (fun c => c != '"')
    if inner.isEmpty || after.isEmpty then
      scanMentionsF fuel ('"' :: rest)
    else
      String.mk inner :: scanMentionsF fuel after.tail
  | fuel + 1, '@' :: rest =>
    let word := rest.takeWhile isWordChar
    if word.isEmpty then scanMentionsF fuel rest
    else String.mk word :: scanMentionsF fuel (rest.drop word.length)
  | fuel + 1, _ :: rest => scanMentionsF fuel rest

/-- The mention tokens of a comment: the loop over `mentionRegex.exec` in
`NotificationService.handleMentions`. -/
def extractMentions (content : String) : List String :=
  scanMentionsF content.data.length content.data

example : extractMentions "great job @\"Jane Doe\" and @bob!" = ["Jane Doe", "bob"] := by
  decide
example : extractMentions "a@@x @\"\" @" = ["x"] := by decide
example : extractMentions "mail me @\"no closing" = [] := by decide

/-- ASCII `toLowerCase` (all names/emails involved are ASCII). -/
def toLowerJS (s : String) : String :=
  String.mk (s.data.map (fun c =>
    if 65 ≤ c.toNat && c.toNat ≤ 90 then Char.ofNat (c.toNat + 32) else c))

/-- JS `email.split('@')[0]`: the prefix before the first `'@'`. -/
def emailLocalPart (email : String) : String :=
  String.mk (email.data.takeWhile (fun c => c != '@'))

/-- The predicate of the `orgUsers.find` in `handleMentions`: exact
case-insensitive match of the token against full name, email, or email
local-part (absent email behaves as the empty string). -/
def mentionMatches (mention : String) (u : User) : Bool :=
  let fullName := toLowerJS (u.firstName ++ " " ++ u.lastName)
  let email := toLowerJS (u.email.getD "")
  fullName == toLowerJS mention || email == toLowerJS mention ||
    emailLocalPart email == toLowerJS mention

/-- Resolution of one mention token against the organization members. -/
def resolveMention (orgUsers : List User) (mention : String) : Option User :=
  orgUsers.find? (mentionMatches mention)

/-- The `mention` notification built for a resolved member. -/
def mentionNotification (mentionedByUser : User) (task : Task)
    (taskId mentionedByUserId organizationId : String) (target : User) :
    Notification :=
  { userId := target.id, type := "mention", title := "You were mentioned",
    message := mentionedByUser.firstName ++ " " ++ mentionedByUser.lastName ++
      " mentioned you in \"" ++ task.title ++ "\"",
    isRead := false, taskId := some taskId,
    triggeredByUserId := mentionedByUserId, organizationId := organizationId }

/-- `NotificationService.handleMentions`, returning the list of persisted
notifications in creation order. -/
def handleMentions (st : Storage) (content : String)
    (taskId mentionedByUserId organizationId : String) (mentionedByUser : User) :
    List Notification :=
  if (extractMentions content).isEmpty then []
  else
    match getTask st taskId with
    | none => []
    | some task =>
      (extractMentions content).filterMap (fun mention =>
        match resolveMention (getUsersInOrganization st organizationId) mention with
        | some mentionedUser =>
          if mentionedUser.id != mentionedByUserId then
            some (mentionNotification mentionedByUser task taskId
              mentionedByUserId organizationId mentionedUser)
          else none
        | none => none)

/-- The `task_comment` notification for the task's assignee. -/
def commentNotification (commenter : User) (task : Task)
    (taskId commenterId organizationId assigneeId : String) : Notification :=
  { userId := assigneeId, type := "task_comment",
    title := "New comment on your task",
    message := commenter.firstName ++ " " ++ commenter.lastName ++
      " commented on \"" ++ task.title ++ "\"",
    isRead := false, taskId := some taskId, triggeredByUserId := commenterId,
    organizationId := organizationId }

/-- `NotificationService.notifyTaskComment`: assignee notification (when the
task has an assignee different from the commenter) followed by the mention
notifications, in persistence order. -/
def notifyTaskComment (st : Storage) (taskId content commenterId organizationId : String) :
    List Notification :=
  match getTask st taskId with
  | none => []
  | some task =>
    match getUserById st commenterId with
    | none => []
    | some commenter =>
      (match task.assigneeId with
        | some assigneeId =>
          if assigneeId != "" && assigneeId != commenterId then
            [commentNotification commenter task taskId commenterId
              organizationId assigneeId]
          else []
        | none => []) ++
        handleMentions st content taskId commenterId organizationId commenter

lemma filter_filterMap_all {α β : Type} (l : List α) (f : α → Option β)
    (p : β → Bool) (h : ∀ a b, f a = some b → p b = true) :
    (l.filterMap f).filter p = l.filterMap f := by
  induction l with
  | nil => rfl
  | cons a l ih =>
    rw [List.filterMap_cons]
    cases hfa : f a with
    | none => simpa using ih
    | some b => simp [List.filter_cons, h a b hfa, ih]

/-- Claim C5: on a `TaskComment` dispatch the persisted `mention`
notifications are exactly one per mention token of the comment text that the
`orgUsers.find` resolves (case-insensitive full name / email / email
local-part) to a member other than the actor, each addressed to that member;
tokens resolving to no member contribute nothing (and the service stays
total — no error). -/
theorem notifyTaskComment_mentions (st : Storage)
    (taskId content commenterId organizationId : String)
    (task : Task) (commenter : User)
    (ht : getTask st taskId = some task)
    (hc : getUserById st commenterId = some commenter) :
    (notifyTaskComment st taskId content commenterId organizationId).filter
        (fun n => n.type == "mention")
      = (extractMentions content).filterMap (fun mention =>
          match resolveMention (getUsersInOrganization st organizationId) mention with
          | some u =>
            if u.id != commenterId then
              some (mentionNotification commenter task taskId commenterId
                organizationId u)
            else none
          | none => none) := by
  have hmentions :
      handleMentions st content taskId commenterId organizationId commenter
        = (extractMentions content).filterMap (fun mention =>
            match resolveMention (getUsersInOrganization st organizationId) mention with
            | some u =>
              if u.id != commenterId then
                some (mentionNotification commenter task taskId commenterId
                  organizationId u)
              else none
            | none => none) := by
    unfold handleMentions
    cases hM : extractMentions content with
    | nil => rfl
    | cons m ms =>
      rw [ht]
      rfl
  have hall :
      ((extractMentions content).filterMap (fun mention =>
          match resolveMention (getUsersInOrganization st organizationId) mention with
          | some u =>
            if u.id != commenterId then
              some (mentionNotification commenter task taskId commenterId
                organizationId u)
            else none
          | none => none)).filter (fun n => n.type == "mention")
        = (extractMentions content).filterMap (fun mention =>
            match resolveMention (getUsersInOrganization st organizationId) mention with
            | some u =>
              if u.id != commenterId then
                some (mentionNotification commenter task taskId commenterId
                  organizationId u)
              else none
            | none => none) := by
    apply filter_filterMap_all
    intro mention n hmn
    revert hmn
    cases resolveMention (getUsersInOrganization st organizationId) mention with
    | none => intro h; cases h
    | some u =>
      by_cases hu : (u.id != commenterId) = true
      · simp only [hu, if_true, Option.some.injEq]
        intro h
        subst h
        rfl
      · simp only [hu, if_false]
        intro h
        cases h
  have hassignee :
      ((match task.assigneeId with
        | some assigneeId =>
          if assigneeId != "" && assigneeId != commenterId then
            [commentNotification commenter task taskId commenterId
              organizationId assigneeId]
          else []
        | none => []) : List Notification).filter (fun n => n.type == "mention")
        = [] := by
    cases task.assigneeId with
    | none => rfl
    | some a =>
      by_cases h : (a != "" && a != commenterId) = true
      · simp [h, List.filter_cons, commentNotification]
      · simp only [Bool.not_eq_true] at h
        simp [h]
  unfold notifyTaskComment
  rw [ht, hc, List.filter_append, hmentions, hall, hassignee]
  rfl

/-- Concrete commenter used by witnesses. -/
def userActor : User :=
  { id := "u1", email := some "al@x.com", firstName := "Al", lastName := "Actor",
    role := "manager", organizationId := some "o1" }

/-- Concrete mentioned member used by witnesses. -/
def userJane : User :=
  { id := "u2", email := some "jane@x.com", firstName := "Jane", lastName := "Doe",
    role := "employee", organizationId := some "o1" }

/-- Concrete storage used by witnesses. -/
def storage0 : Storage := { users := [userActor, userJane], tasks := [task0] }

/-- Witness for C5: a comment mentioning `@"Jane Doe"` (a member, not the
actor) and `@ghost` (no member) yields exactly Jane's `mention`
notification. -/
theorem notifyTaskComment_mentions_witness :
    getTask storage0 "t1" = some task0 ∧
    getUserById storage0 "u1" = some userActor ∧
    (notifyTaskComment storage0 "t1" "great job @\"Jane Doe\" and @ghost"
        "u1" "o1").filter (fun n => n.type == "mention")
      = [mentionNotification userActor task0 "t1" "u1" "o1" userJane] :=
  ⟨by decide, by decide,
    (notifyTaskComment_mentions storage0 "t1" "great job @\"Jane Doe\" and @ghost"
        "u1" "o1" task0 userActor (by decide) (by decide)).trans (by decide)⟩

/-! ### The WebSocketManager connection registry (server/websocket.ts)

A live socket (`AuthenticatedWebSocket`) is identified by a `Nat` id; its
mutable fields (`userId`, `organizationId`, `isAuthenticated`, and the
transport's `readyState === OPEN`) live in a connection table, and
`connections : Map<organizationId, Set<socket>>` is an association list of
organization ids to socket-id lists (JS `Map`/`Set` preserve insertion
order and hold no duplicate keys/elements). -/

/-- The per-socket fields read by the registry. -/
structure Conn where
  userId : Option String
  organizationId : Option String
  isAuthenticated : Bool
  isOpen : Bool
deriving DecidableEq

/-- Connection table plus the `connections` map of `WebSocketManager`. -/
structure WSState where
  conns : List (Nat × Conn)
  registry : List (String × List Nat)
deriving DecidableEq

/-- Lookup of a socket's fields. -/
def lookupConn : List (Nat × Conn) → Nat → Option Conn
  | [], _ => none
  | (k, v) :: rest, cid => if k = cid then some v else lookupConn rest cid

/-- Point update / insertion of a socket's fields. -/
def setConn : List (Nat × Conn) → Nat → Conn → List (Nat × Conn)
  | [], cid, c => [(cid, c)]
  | (k, v) :: rest, cid, c =>
    if k = cid then (k, c) :: rest else (k, v) :: setConn rest cid c

/-- `Map.get` on the organization map. -/
def lookupOrg : List (String × List Nat) → String → Option (List Nat)
  | [], _ => none
  | (k, v) :: rest, o => if k = o then some v else lookupOrg rest o

/-- `Map.set` on the organization map. -/
def setOrg : List (String × List Nat) → String → List Nat → List (String × List Nat)
  | [], o, l => [(o, l)]
  | (k, v) :: rest, o, l =>
    if k = o then (k, l) :: rest else (k, v) :: setOrg rest o l

/-- `Map.delete` on the organization map. -/
def delOrg (r : List (String × List Nat)) (o : String) : List (String × List Nat) :=
  r.filter (fun p => p.1 != o)

/-- The socket ids registered for an organization (empty when the key is
absent). -/
def connsOf (st : WSState) (o : String) : List Nat :=
  (lookupOrg st.registry o).getD []

/-- `WebSocketManager.addConnection`: no-op unless the socket carries both a
`userId` and an `organizationId`; otherwise inserts it into that
organization's set (`Set.add`: no duplicate). -/
def addConnection (st : WSState) (cid : Nat) : WSState :=
  match lookupConn st.conns cid with
  | none => st
  | some c =>
    match c.userId, c.organizationId with
    | some _, some oid =>
      let orgConnections := (lookupOrg st.registry oid).getD []
      let orgConnections' :=
        if cid ∈ orgConnections then orgConnections else orgConnections ++ [cid]
      { st with registry := setOrg st.registry oid orgConnections' }
    | _, _ => st

/-- `WebSocketManager.removeConnection`: no-op when the socket has no
`organizationId` or its organization has no entry; otherwise deletes the
socket from the set and drops the map entry when the set becomes empty. -/
def removeConnection (st : WSState) (cid : Nat) : WSState :=
  match lookupConn st.conns cid with
  | none => st
  | some c =>
    match c.organizationId with
    | none => st
    | some oid =>
      match lookupOrg st.registry oid with
      | none => st
      | some orgConnections =>
        let orgConnections' := orgConnections.erase cid
        if orgConnections'.isEmpty then
          { st with registry := delOrg st.registry oid }
        else
          { st with registry := setOrg st.registry oid orgConnections' }

/-- `WebSocketManager.sendNotificationToUser`: the ids of the sockets that
receive the `{type:"notification"}` push — those in the organization's set
whose `userId` matches, that are authenticated, and whose transport is open
(`sendMessage` only writes when `readyState === OPEN`). -/
def sendNotificationToUser (st : WSState) (userId organizationId : String) : List Nat :=
  match lookupOrg st.registry organizationId with
  | none => []
  | some orgConnections =>
    orgConnections.filter (fun cid =>
      match lookupConn st.conns cid with
      | some c => c.userId == some userId && c.isAuthenticated && c.isOpen
      | none => false)

/-- The successful tail of `handleConnection`: server-side session validation
has resolved `uid`/`oid`, the three socket fields are assigned, and the
socket is added to the registry. -/
def connectState (st : WSState) (cid : Nat) (uid oid : String) : WSState :=
  addConnection
    { st with
      conns := setConn st.conns cid (Conn.mk (some uid) (some oid) true true) } cid

/-- The close/error handler: the transport is no longer open and
`removeConnection` runs. -/
def disconnectState (st : WSState) (cid : Nat) (c : Conn) : WSState :=
  removeConnection
    { st with conns := setConn st.conns cid { c with isOpen := false } } cid

/-- One registry-mutating event of the manager: a fresh socket completing the
authenticated handshake (the only call site of `addConnection`), or a
registered socket's close/error handler (the only call sites of
`removeConnection`). -/
inductive WSStep : WSState → WSState → Prop
  | connect (st : WSState) (cid : Nat) (uid oid : String)
      (hfresh : lookupConn st.conns cid = none) :
      WSStep st (connectState st cid uid oid)
  | disconnect (st : WSState) (cid : Nat) (c : Conn)
      (hc : lookupConn st.conns cid = some c) :
      WSStep st (disconnectState st cid c)

/-- Registry states reachable from the empty manager state by add/remove
events. -/
inductive Reachable : WSState → Prop
  | init : Reachable ⟨[], []⟩
  | step {st st' : WSState} : Reachable st → WSStep st st' → Reachable st'

lemma lookupConn_setConn_self (l : List (Nat × Conn)) (cid : Nat) (c : Conn) :
    lookupConn (setConn l cid c) cid = some c := by
  induction l with
  | nil => simp [setConn, lookupConn]
  | cons p rest ih =>
    by_cases h : p.1 = cid
    · simp [setConn, h, lookupConn]
    · simp [setConn, h, lookupConn, ih]

lemma lookupConn_setConn_other (l : List (Nat × Conn)) {cid cid' : Nat} (c : Conn)
    (h : cid' ≠ cid) : lookupConn (setConn l cid c) cid' = lookupConn l cid' := by
  induction l with
  | nil => simp [setConn, lookupConn, Ne.symm h]
  | cons p rest ih =>
    by_cases hp : p.1 = cid
    · subst hp
      simp [setConn, lookupConn, Ne.symm h, h]
    · simp [setConn, hp, lookupConn, ih]

lemma lookupOrg_setOrg_self (r : List (String × List Nat)) (o : String) (l : List Nat) :
    lookupOrg (setOrg r o l) o = some l := by
  induction r with
  | nil => simp [setOrg, lookupOrg]
  | cons p rest ih =>
    by_cases h : p.1 = o
    · simp [setOrg, h, lookupOrg]
    · simp [setOrg, h, lookupOrg, ih]

lemma lookupOrg_setOrg_other (r : List (String × List Nat)) {o o' : String}
    (l : List Nat) (h : o' ≠ o) :
    lookupOrg (setOrg r o l) o' = lookupOrg r o' := by
  induction r with
  | nil => simp [setOrg, lookupOrg, Ne.symm h]
  | cons p rest ih =>
    by_cases hp : p.1 = o
    · subst hp
      simp [setOrg, lookupOrg, Ne.symm h, h]
    · simp [setOrg, hp, lookupOrg, ih]

lemma lookupOrg_delOrg_self (r : List (String × List Nat)) (o : String) :
    lookupOrg (delOrg r o) o = none := by
  induction r with
  | nil => rfl
  | cons p rest ih =>
    by_cases h : p.1 = o
    · simpa [delOrg, List.filter_cons, h] using ih
    · simpa [delOrg, List.filter_cons, h, lookupOrg] using ih

lemma lookupOrg_delOrg_other (r : List (String × List Nat)) {o o' : String}
    (h : o' ≠ o) : lookupOrg (delOrg r o) o' = lookupOrg r o' := by
  induction r with
  | nil => rfl
  | cons p rest ih =>
    by_cases hp : p.1 = o
    · subst hp
      simp only [delOrg, List.filter_cons, bne_self_eq_false] at ih ⊢
      simpa [lookupOrg, Ne.symm h] using ih
    · simp only [delOrg, List.filter_cons] at ih ⊢
      simp [hp, lookupOrg, ih]

lemma connsOf_mk (cs : List (Nat × Conn)) (r : List (String × List Nat)) (o : String) :
    connsOf ⟨cs, r⟩ o = (lookupOrg r o).getD [] := rfl

/-- The registry invariant of claim C4: every registered socket id carries an
entry in the connection table whose `organizationId` is exactly the
organization whose set it sits in (hence at most one set), with the
authenticated flag set, the transport open, and a user id present. -/
def RegistryInv (st : WSState) : Prop :=
  ∀ o cid, cid ∈ connsOf st o →
    ∃ c, lookupConn st.conns cid = some c ∧ c.organizationId = some o ∧
      c.isAuthenticated = true ∧ c.isOpen = true ∧ ∃ u, c.userId = some u

/-- Each organization's set is duplicate-free (a JS `Set`). -/
def RegistryNodup (st : WSState) : Prop := ∀ o, (connsOf st o).Nodup

lemma connectState_eq (st : WSState) (cid : Nat) (uid oid : String)
    (hnotin : cid ∉ connsOf st oid) :
    connectState st cid uid oid =
      { conns := setConn st.conns cid (Conn.mk (some uid) (some oid) true true),
        registry := setOrg st.registry oid (connsOf st oid ++ [cid]) } := by
  have hnotin' : cid ∉ (lookupOrg st.registry oid).getD [] := hnotin
  unfold connectState addConnection
  rw [lookupConn_setConn_self]
  dsimp only
  rw [if_neg hnotin']
  rfl

lemma connect_preserves (st : WSState) (cid : Nat) (uid oid : String)
    (hfresh : lookupConn st.conns cid = none)
    (hinv : RegistryInv st) (hnd : RegistryNodup st) :
    RegistryInv (connectState st cid uid oid) ∧
      RegistryNodup (connectState st cid uid oid) := by
  have hnotin : cid ∉ connsOf st oid := by
    intro hmem
    obtain ⟨c, hlk, -⟩ := hinv oid cid hmem
    rw [hfresh] at hlk
    cases hlk
  have hfreshne : ∀ o cid2, cid2 ∈ connsOf st o → cid2 ≠ cid := by
    intro o cid2 hmem heq
    subst heq
    obtain ⟨c, hlk, -⟩ := hinv o cid2 hmem
    rw [hfresh] at hlk
    cases hlk
  rw [connectState_eq st cid uid oid hnotin]
  have hconnsOf : ∀ o, connsOf
      ({ conns := setConn st.conns cid (Conn.mk (some uid) (some oid) true true),
         registry := setOrg st.registry oid (connsOf st oid ++ [cid]) } : WSState) o
      = if o = oid then connsOf st oid ++ [cid] else connsOf st o := by
    intro o
    by_cases ho : o = oid
    · subst ho
      simp [connsOf, lookupOrg_setOrg_self]
    · simp [connsOf, lookupOrg_setOrg_other _ _ ho, ho]
  constructor
  · intro o cid2 hmem
    rw [hconnsOf] at hmem
    by_cases ho : o = oid
    · subst ho
      rw [if_pos rfl] at hmem
      rcases List.mem_append.1 hmem with hmem | hmem
      · obtain ⟨c, hlk, horg, hauth, hopen, u, hu⟩ := hinv o cid2 hmem
        refine ⟨c, ?_, horg, hauth, hopen, u, hu⟩
        dsimp only
        rw [lookupConn_setConn_other _ _ (hfreshne _ _ hmem)]
        exact hlk
      · have : cid2 = cid := by simpa using hmem
        subst this
        refine ⟨Conn.mk (some uid) (some o) true true, ?_, rfl, rfl, rfl, uid, rfl⟩
        exact lookupConn_setConn_self _ _ _
    · rw [if_neg ho] at hmem
      obtain ⟨c, hlk, horg, hauth, hopen, u, hu⟩ := hinv o cid2 hmem
      refine ⟨c, ?_, horg, hauth, hopen, u, hu⟩
      dsimp only
      rw [lookupConn_setConn_other _ _ (hfreshne _ _ hmem)]
      exact hlk
  · intro o
    rw [hconnsOf]
    by_cases ho : o = oid
    · subst ho
      rw [if_pos rfl]
      simp [List.nodup_append, hnd o, hnotin]
    · rw [if_neg ho]
      exact hnd o

lemma disconnect_preserves (st : WSState) (cid : Nat) (c : Conn)
    (hc : lookupConn st.conns cid = some c)
    (hinv : RegistryInv st) (hnd : RegistryNodup st) :
    RegistryInv (disconnectState st cid c) ∧
      RegistryNodup (disconnectState st cid c) := by
  have hkeep : ∀ o cid2, cid2 ∈ connsOf st o → cid2 ≠ cid →
      ∃ cOld, lookupConn (setConn st.conns cid { c with isOpen := false }) cid2
          = some cOld ∧ cOld.organizationId = some o ∧
        cOld.isAuthenticated = true ∧ cOld.isOpen = true ∧ ∃ u, cOld.userId = some u := by
    intro o cid2 hmem hne
    obtain ⟨cOld, hlk, horg, hauth, hopen, u, hu⟩ := hinv o cid2 hmem
    refine ⟨cOld, ?_, horg, hauth, hopen, u, hu⟩
    rw [lookupConn_setConn_other _ _ hne]
    exact hlk
  have hself : ∀ o, cid ∈ connsOf st o → c.organizationId = some o := by
    intro o hmem
    obtain ⟨cOld, hlk, horg, -⟩ := hinv o cid hmem
    rw [hc] at hlk
    cases hlk
    exact horg
  unfold disconnectState removeConnection
  dsimp only
  rw [lookupConn_setConn_self]
  dsimp only
  cases horg : c.organizationId with
  | none =>
    dsimp only
    rw [horg] at hkeep
    refine ⟨?_, fun o => hnd o⟩
    intro o cid2 hmem
    have hmem' : cid2 ∈ connsOf st o := hmem
    have hne : cid2 ≠ cid := by
      intro heq
      subst heq
      rw [hself o hmem'] at horg
      cases horg
    exact hkeep o cid2 hmem' hne
  | some oid =>
    dsimp only
    rw [horg] at hkeep
    cases hl : lookupOrg st.registry oid with
    | none =>
      dsimp only
      refine ⟨?_, fun o => hnd o⟩
      intro o cid2 hmem
      have hmem' : cid2 ∈ connsOf st o := hmem
      have hne : cid2 ≠ cid := by
        intro heq
        subst heq
        have := hself o hmem'
        rw [horg] at this
        cases this
        have : cid2 ∈ connsOf st oid := hmem'
        rw [connsOf, hl] at this
        cases this
      exact hkeep o cid2 hmem' hne
    | some l =>
      have hL : connsOf st oid = l := by rw [connsOf, hl]; rfl
      have hlnd : l.Nodup := hL ▸ hnd oid
      dsimp only
      by_cases hemp : (l.erase cid).isEmpty
      · rw [if_pos hemp]
        constructor
        · intro o cid2 hmem
          by_cases ho : o = oid
          · subst ho
            rw [connsOf] at hmem
            dsimp only at hmem
            rw [lookupOrg_delOrg_self] at hmem
            cases hmem
          · have hmem' : cid2 ∈ connsOf st o := by
              rw [connsOf] at hmem ⊢
              dsimp only at hmem
              rwa [lookupOrg_delOrg_other _ ho] at hmem
            have hne : cid2 ≠ cid := by
              intro heq
              subst heq
              have := hself o hmem'
              rw [horg] at this
              cases this
              exact ho rfl
            exact hkeep o cid2 hmem' hne
        · intro o
          by_cases ho : o = oid
          · subst ho
            rw [connsOf_mk, lookupOrg_delOrg_self]
            exact List.nodup_nil
          · rw [connsOf_mk, lookupOrg_delOrg_other _ ho]
            exact hnd o
      · rw [if_neg hemp]
        constructor
        · intro o cid2 hmem
          by_cases ho : o = oid
          · subst ho
            rw [connsOf_mk, lookupOrg_setOrg_self, Option.getD_some] at hmem
            have hmem2 := (List.Nodup.mem_erase_iff hlnd).1 hmem
            have hmem' : cid2 ∈ connsOf st o := hL ▸ hmem2.2
            exact hkeep o cid2 hmem' hmem2.1
          · have hmem' : cid2 ∈ connsOf st o := by
              rw [connsOf_mk, lookupOrg_setOrg_other _ _ ho] at hmem
              exact hmem
            have hne : cid2 ≠ cid := by
              intro heq
              subst heq
              have := hself o hmem'
              rw [horg] at this
              cases this
              exact ho rfl
            exact hkeep o cid2 hmem' hne
        · intro o
          by_cases ho : o = oid
          · subst ho
            rw [connsOf_mk, lookupOrg_setOrg_self, Option.getD_some]
            exact List.Nodup.erase _ hlnd
          · rw [connsOf_mk, lookupOrg_setOrg_other _ _ ho]
            exact hnd o

/-- Every reachable registry state satisfies the membership invariant and has
duplicate-free organization sets. -/
lemma reachable_inv {st : WSState} (h : Reachable st) :
    RegistryInv st ∧ RegistryNodup st := by
  induction h with
  | init =>
    constructor
    · intro o cid hmem
      simp [connsOf, lookupOrg] at hmem
    · intro o
      simp [connsOf, lookupOrg]
  | step _ hstep ih =>
    cases hstep with
    | connect cid uid oid hfresh =>
      exact connect_preserves _ cid uid oid hfresh ih.1 ih.2
    | disconnect cid c hc =>
      exact disconnect_preserves _ cid c hc ih.1 ih.2

/-- Whether the connection table records `cid` as authenticated. -/
def connAuthenticated (st : WSState) (cid : Nat) : Bool :=
  match lookupConn st.conns cid with
  | some c => c.isAuthenticated
  | none => false

/-- The user id the connection table records for `cid`. -/
def connUserId (st : WSState) (cid : Nat) : Option String :=
  match lookupConn st.conns cid with
  | some c => c.userId
  | none => none

/-- Claim C4: in every registry state reachable by add/remove events, a
connection belongs to at most one organization's set (membership in two sets
forces the organizations equal), and any member of a set is flagged
authenticated in the connection table. -/
theorem registry_membership_invariant (st : WSState) (h : Reachable st)
    (cid : Nat) (o1 o2 : String)
    (h1 : cid ∈ connsOf st o1) (h2 : cid ∈ connsOf st o2) :
    o1 = o2 ∧ connAuthenticated st cid = true := by
  obtain ⟨hinv, -⟩ := reachable_inv h
  obtain ⟨c1, hl1, horg1, hauth1, -⟩ := hinv o1 cid h1
  obtain ⟨c2, hl2, horg2, -⟩ := hinv o2 cid h2
  constructor
  · rw [hl1] at hl2
    cases hl2
    rw [horg1] at horg2
    exact Option.some_injective _ horg2
  · unfold connAuthenticated
    rw [hl1]
    exact hauth1

/-- The empty manager state. -/
def wsInit : WSState := ⟨[], []⟩

/-- One authenticated connection (id 0, user "u1", org "o1"). -/
def wsState1 : WSState := connectState wsInit 0 "u1" "o1"

/-- Witness for C4 in the one-connection reachable state. -/
theorem registry_membership_invariant_witness :
    (0 ∈ connsOf wsState1 "o1") ∧
    ("o1" = "o1" ∧ connAuthenticated wsState1 0 = true) :=
  ⟨by decide,
    registry_membership_invariant wsState1
      (Reachable.step Reachable.init (WSStep.connect wsInit 0 "u1" "o1" rfl))
      0 "o1" "o1" (by decide) (by decide)⟩

lemma removeConnection_not_mem (st : WSState) (cid : Nat)
    (h : ∀ o', cid ∉ connsOf st o') (o : String) :
    connsOf (removeConnection st cid) o = connsOf st o := by
  unfold removeConnection
  cases hlc : lookupConn st.conns cid with
  | none => rfl
  | some c =>
    dsimp only
    cases horg : c.organizationId with
    | none => rfl
    | some oid =>
      dsimp only
      cases hl : lookupOrg st.registry oid with
      | none => rfl
      | some l =>
        dsimp only
        have hnotin : cid ∉ l := by
          have hh := h oid
          rw [connsOf, hl] at hh
          exact hh
        rw [List.erase_of_not_mem hnotin]
        by_cases hemp : l.isEmpty
        · rw [if_pos hemp]
          have hl0 : l = [] := by
            cases l with
            | nil => rfl
            | cons x xs => simp [List.isEmpty] at hemp
          subst hl0
          by_cases ho : o = oid
          · subst ho
            rw [connsOf_mk, lookupOrg_delOrg_self, connsOf, hl]
            rfl
          · rw [connsOf_mk, lookupOrg_delOrg_other _ ho]
            rfl
        · rw [if_neg hemp]
          by_cases ho : o = oid
          · subst ho
            rw [connsOf_mk, lookupOrg_setOrg_self, Option.getD_some, connsOf, hl]
            rfl
          · rw [connsOf_mk, lookupOrg_setOrg_other _ _ ho]
            rfl

/-- Claim C9: removing a connection that is in no organization's set (never
added, e.g. closed before authentication completed) is a total no-op on every
organization's set — `removeConnection` is a function, so it cannot raise —
and calling it twice is equally harmless. -/
theorem removeConnection_never_added (st : WSState) (cid : Nat) (o : String)
    (h : ∀ o', cid ∉ connsOf st o') :
    connsOf (removeConnection st cid) o = connsOf st o ∧
    connsOf (removeConnection (removeConnection st cid) cid) o = connsOf st o := by
  have h1 := removeConnection_not_mem st cid h
  have h' : ∀ o', cid ∉ connsOf (removeConnection st cid) o' := by
    intro o'
    rw [h1 o']
    exact h o'
  exact ⟨h1 o, (removeConnection_not_mem _ cid h' o).trans (h1 o)⟩

/-- Witness for C9: removing the never-added id 2 from the one-connection
state leaves org "o1"'s set unchanged, once and twice. -/
theorem removeConnection_never_added_witness :
    connsOf (removeConnection wsState1 2) "o1" = connsOf wsState1 "o1" ∧
    connsOf (removeConnection (removeConnection wsState1 2) 2) "o1"
      = connsOf wsState1 "o1" :=
  removeConnection_never_added wsState1 2 "o1" (by
    intro o'
    have heq : wsState1.registry = [("o1", [0])] := by decide
    rw [connsOf, heq]
    by_cases ho : "o1" = o'
    · subst ho
      decide
    · simp [lookupOrg, ho])

/-- Claim C7: in any reachable registry state, a push for an event targeting
`(uid, oid)` reaches each connection registered for that user in that
organization exactly once, and reaches a connection recorded for a different
user, or not registered in that organization's set (in particular any
connection of a different organization), zero times. -/
theorem sendNotification_exactly_once (st : WSState) (h : Reachable st)
    (uid oid : String) (cid : Nat) :
    (cid ∈ connsOf st oid → connUserId st cid = some uid →
      (sendNotificationToUser st uid oid).count cid = 1) ∧
    (connUserId st cid ≠ some uid →
      (sendNotificationToUser st uid oid).count cid = 0) ∧
    (cid ∉ connsOf st oid →
      (sendNotificationToUser st uid oid).count cid = 0) := by
  obtain ⟨hinv, hnd⟩ := reachable_inv h
  unfold sendNotificationToUser
  cases hl : lookupOrg st.registry oid with
  | none =>
    have hconns : connsOf st oid = [] := by rw [connsOf, hl]; rfl
    refine ⟨?_, ?_, ?_⟩
    · intro hmem _
      rw [hconns] at hmem
      cases hmem
    · intro _
      simp
    · intro _
      simp
  | some l =>
    dsimp only
    have hconns : connsOf st oid = l := by rw [connsOf, hl]; rfl
    have hlnd : l.Nodup := hconns ▸ hnd oid
    refine ⟨?_, ?_, ?_⟩
    · intro hmem huid
      rw [hconns] at hmem
      obtain ⟨c, hlk, horg, hauth, hopen, u, hu⟩ := hinv oid cid (hconns ▸ hmem)
      have huser : c.userId = some uid := by
        unfold connUserId at huid
        rw [hlk] at huid
        exact huid
      have hP : (match lookupConn st.conns cid with
          | some c => c.userId == some uid && c.isAuthenticated && c.isOpen
          | none => false) = true := by
        rw [hlk]
        show (c.userId == some uid && c.isAuthenticated && c.isOpen) = true
        rw [huser, hauth, hopen]
        simp
      apply List.count_eq_one_of_mem (List.Nodup.filter _ hlnd)
      exact List.mem_filter.2 ⟨hmem, hP⟩
    · intro huid
      rw [List.count_eq_zero]
      intro hmem
      have hP := (List.mem_filter.1 hmem).2
      revert hP
      cases hlk : lookupConn st.conns cid with
      | none => intro hP; cases hP
      | some c =>
        intro hP
        have hP' : (c.userId == some uid && c.isAuthenticated && c.isOpen) = true := hP
        have : c.userId = some uid := by
          simp only [Bool.and_eq_true, beq_iff_eq] at hP'
          exact hP'.1.1
        apply huid
        unfold connUserId
        rw [hlk]
        exact this
    · intro hmem
      rw [List.count_eq_zero]
      intro hmemf
      exact hmem (hconns ▸ (List.mem_filter.1 hmemf).1)

/-- Two authenticated connections for different users in org "o1". -/
def wsState2 : WSState := connectState wsState1 1 "u2" "o1"

/-- A third authenticated connection in a different org "o2". -/
def wsState3 : WSState := connectState wsState2 2 "u3" "o2"

/-- Witness for C7: pushing to ("u1","o1") in the three-connection state
reaches connection 0 exactly once, connection 1 (user "u2") zero times and
connection 2 (org "o2") zero times. -/
theorem sendNotification_exactly_once_witness :
    (0 ∈ connsOf wsState3 "o1") ∧
    connUserId wsState3 0 = some "u1" ∧
    (sendNotificationToUser wsState3 "u1" "o1").count 0 = 1 ∧
    (sendNotificationToUser wsState3 "u1" "o1").count 1 = 0 ∧
    (sendNotificationToUser wsState3 "u1" "o1").count 2 = 0 :=
  ⟨by decide, by decide,
    (sendNotification_exactly_once wsState3
      (Reachable.step (Reachable.step (Reachable.step Reachable.init
        (WSStep.connect wsInit 0 "u1" "o1" rfl))
        (WSStep.connect wsState1 1 "u2" "o1" rfl))
        (WSStep.connect wsState2 2 "u3" "o2" rfl))
      "u1" "o1" 0).1 (by decide) (by decide),
    (sendNotification_exactly_once wsState3
      (Reachable.step (Reachable.step (Reachable.step Reachable.init
        (WSStep.connect wsInit 0 "u1" "o1" rfl))
        (WSStep.connect wsState1 1 "u2" "o1" rfl))
        (WSStep.connect wsState2 2 "u3" "o2" rfl))
      "u1" "o1" 1).2.1 (by decide),
    (sendNotification_exactly_once wsState3
      (Reachable.step (Reachable.step (Reachable.step Reachable.init
        (WSStep.connect wsInit 0 "u1" "o1" rfl))
        (WSStep.connect wsState1 1 "u2" "o1" rfl))
        (WSStep.connect wsState2 2 "u3" "o2" rfl))
      "u1" "o1" 2).2.2 (by decide)⟩

/-! ### NotificationService.createAndSendNotification -/

/-- Observable effects of one dispatch, in program order. -/
inductive DispatchStep where
  | persisted (n : Notification)
  | pushed (cid : Nat) (n : Notification)
deriving DecidableEq

/-- The sockets `wsManager.sendNotificationToUser` writes to, or none when no
WebSocket manager is attached. -/
def pushTargets (wsManager : Option WSState) (notificationData : Notification) :
    List Nat :=
  match wsManager with
  | some st =>
    sendNotificationToUser st notificationData.userId
      notificationData.organizationId
  | none => []

/-- `NotificationService.createAndSendNotification`: awaits
`storage.createNotification` (its outcome is the `persistResult` input; a
rejection is rethrown to the caller), and only after the record exists pushes
it to the user's live sockets.  Returns the effect trace in program order and
the result seen by the caller. -/
def createAndSendNotification (persistResult : Except String Notification)
    (wsManager : Option WSState) (notificationData : Notification) :
    List DispatchStep × Except String Notification :=
  match persistResult with
  | Except.error e => ([], Except.error e)
  | Except.ok notification =>
    (DispatchStep.persisted notification ::
        (pushTargets wsManager notificationData).map
          (fun cid => DispatchStep.pushed cid notification),
      Except.ok notification)

/-- Claim C6: if persisting the record fails, the failure propagates to the
caller of dispatch and no push is attempted (empty effect trace); if it
succeeds, the persisted effect precedes every push in the trace, and the call
succeeds even when the recipient has no live connection (empty push list is
not an error). -/
theorem dispatch_persist_first (persistResult : Except String Notification)
    (wsManager : Option WSState) (notificationData : Notification) :
    (∀ e, persistResult = Except.error e →
      createAndSendNotification persistResult wsManager notificationData
        = ([], Except.error e)) ∧
    (∀ n, persistResult = Except.ok n →
      createAndSendNotification persistResult wsManager notificationData
        = (DispatchStep.persisted n ::
            (pushTargets wsManager notificationData).map
              (fun cid => DispatchStep.pushed cid n),
           Except.ok n)) := by
  constructor
  · intro e he
    subst he
    rfl
  · intro n hn
    subst hn
    rfl

/-- A concrete notification record for the C6 witness, addressed to a user
with no live connection. -/
def notif0 : Notification :=
  { userId := "ghost", type := "task_comment", title := "New comment on your task",
    message := "m", isRead := false, taskId := some "t1",
    triggeredByUserId := "u1", organizationId := "o1" }

/-- Witness for C6: a failed persist propagates with no push; a successful
persist for a recipient without live connections yields the persisted record
only, and succeeds. -/
theorem dispatch_persist_first_witness :
    createAndSendNotification (Except.error "db down") (some wsState1) notif0
      = ([], Except.error "db down") ∧
    createAndSendNotification (Except.ok notif0) (some wsState1) notif0
      = ([DispatchStep.persisted notif0], Except.ok notif0) :=
  ⟨(dispatch_persist_first (Except.error "db down") (some wsState1) notif0).1
      "db down" rfl,
    ((dispatch_persist_first (Except.ok notif0) (some wsState1) notif0).2
      notif0 rfl).trans (by
        rw [show pushTargets (some wsState1) notif0 = [] from by decide]
        rfl)⟩

/-! ### The WebSocket handshake (verifyClient / handleConnection) -/

/-- The session payload: `passport.user.claims.sub` when the session carries an
authenticated principal, `none` when the `passport`/`user`/`claims` chain is
absent. -/
structure SessionData where
  claimsSub : Option String
deriving DecidableEq

/-- Actions `handleConnection` performs on the socket, in program order:
`close code reason`, `send` of an outbound message type, or registration of
the authenticated connection (`addConnection`). -/
inductive WsAction where
  | close (code : Nat) (reason : String)
  | send (msgType : String)
  | register (userId organizationId : String)
deriving DecidableEq

/-- `sessionId.startsWith('s:') ? sessionId.slice(2).split('.')[0] : sessionId`. -/
def decodeSessionId (sid : String) : String :=
  if sid.data.take 2 = ['s', ':'] then
    String.mk ((sid.data.drop 2).takeWhile (fun c => c != '.'))
  else sid

/-- `WebSocketManager.verifyClient`: reject when a declared origin is not in
the allow-list, then reject when the cookie header carries no
`connect.sid`; otherwise accept (an absent/empty origin skips the origin
check, as `info.origin && ...` is falsy). -/
def verifyClient (allowedOrigins : List String) (origin : Option String)
    (cookieSessionId : Option String) : Bool :=
  match origin with
  | some o => if allowedOrigins.contains o then cookieSessionId.isSome else false
  | none => cookieSessionId.isSome

/-- `WebSocketManager.handleConnection` as the action trace it performs, as a
function of the session store, the user store and the session id forwarded by
`verifyClient`.  A store miss rejects the awaited promise, so control reaches
the outer `catch` (`close(1011, 'Server error during authentication')`);
a session without an authenticated principal and a missing session id close
with `1008`; on success the connection is registered and then the
`{type:"connection"}` confirmation is sent. -/
def handleConnection (sessionStore : String → Option SessionData)
    (getUser : String → Option User) (sessionId : Option String) :
    List WsAction :=
  match sessionId with
  | none => [WsAction.close 1008 "Authentication required"]
  | some sid =>
    match sessionStore (decodeSessionId sid) with
    | none => [WsAction.close 1011 "Server error during authentication"]
    | some sessionData =>
      match sessionData.claimsSub with
      | none => [WsAction.close 1008 "Authentication required"]
      | some userId =>
        match getUser userId with
        | none => [WsAction.close 1008 "User not found or not associated with organization"]
        | some user =>
          match user.organizationId with
          | none => [WsAction.close 1008 "User not found or not associated with organization"]
          | some organizationId =>
            [WsAction.register userId organizationId, WsAction.send "connection"]

/-- Claim C1, counterexample: for a handshake whose session cookie misses the
session store, the connection is closed with code 1011 ("Server error during
authentication") — not with the distinct auth-required close code 1008
("Authentication required") the server uses for the other unauthenticated
cases — so the claim as stated fails on the store-miss path (the close still
happens before any `{type:"connection"}` message). -/
theorem handshake_auth_cex :
    handleConnection (fun _ => none) (fun _ => none) (some "sid123")
      = [WsAction.close 1011 "Server error during authentication"] ∧
    WsAction.close 1008 "Authentication required"
      ∉ handleConnection (fun _ => none) (fun _ => none) (some "sid123") := by
  refine ⟨rfl, ?_⟩
  intro h
  rw [show handleConnection (fun _ => none) (fun _ => none) (some "sid123")
      = [WsAction.close 1011 "Server error during authentication"] from rfl] at h
  simp at h

/-- Claim C1 (amended): every unauthenticated handshake is rejected before any
`{type:"connection"}` message (indeed before any outbound message and before
registration): with no session cookie `verifyClient` refuses the upgrade, and
`handleConnection` without a session id closes 1008 "Authentication
required"; a session whose payload lacks an authenticated principal closes
1008 "Authentication required"; but a session-store miss closes with 1011
"Server error during authentication" rather than the distinct auth-required
code. -/
theorem handshake_auth (sessionStore : String → Option SessionData)
    (getUser : String → Option User) (allowedOrigins : List String)
    (origin : Option String) (sid : String) (sd : SessionData) :
    (verifyClient allowedOrigins origin none = false) ∧
    (handleConnection sessionStore getUser none
      = [WsAction.close 1008 "Authentication required"]) ∧
    (sessionStore (decodeSessionId sid) = none →
      handleConnection sessionStore getUser (some sid)
        = [WsAction.close 1011 "Server error during authentication"]) ∧
    (sessionStore (decodeSessionId sid) = some sd → sd.claimsSub = none →
      handleConnection sessionStore getUser (some sid)
        = [WsAction.close 1008 "Authentication required"]) ∧
    (∀ t, WsAction.send t ∉ handleConnection sessionStore getUser none) ∧
    (sessionStore (decodeSessionId sid) = none ∨
        (sessionStore (decodeSessionId sid) = some sd ∧ sd.claimsSub = none) →
      ∀ t, WsAction.send t ∉ handleConnection sessionStore getUser (some sid)) := by
  refine ⟨?_, rfl, ?_, ?_, ?_, ?_⟩
  · cases origin with
    | none => rfl
    | some o =>
      unfold verifyClient
      by_cases h : allowedOrigins.contains o <;> simp [h]
  · intro hmiss
    unfold handleConnection
    dsimp only
    rw [hmiss]
  · intro hhit hnone
    unfold handleConnection
    dsimp only
    rw [hhit]
    dsimp only
    rw [hnone]
  · intro t ht
    simp [handleConnection] at ht
  · intro hcase t ht
    unfold handleConnection at ht
    dsimp only at ht
    rcases hcase with hmiss | ⟨hhit, hnone⟩
    · rw [hmiss] at ht
      simp at ht
    · rw [hhit] at ht
      dsimp only at ht
      rw [hnone] at ht
      simp at ht

/-- Witness for C1 (amended) at a concrete store with one principal-less
session. -/
theorem handshake_auth_witness :
    ((fun s => if s = "sess1" then some (SessionData.mk none) else none)
        (decodeSessionId "sess1") = some (SessionData.mk none)) ∧
    (handleConnection
        (fun s => if s = "sess1" then some (SessionData.mk none) else none)
        (fun _ => none) (some "sess1")
      = [WsAction.close 1008 "Authentication required"]) ∧
    (handleConnection
        (fun s => if s = "sess1" then some (SessionData.mk none) else none)
        (fun _ => none) (some "missing")
      = [WsAction.close 1011 "Server error during authentication"]) ∧
    verifyClient ["https://app.example"] (some "https://app.example") none = false :=
  ⟨by decide,
    (handshake_auth
        (fun s => if s = "sess1" then some (SessionData.mk none) else none)
        (fun _ => none) [] none "sess1" (SessionData.mk none)).2.2.2.1
      (by decide) rfl,
    (handshake_auth
        (fun s => if s = "sess1" then some (SessionData.mk none) else none)
        (fun _ => none) [] none "missing" (SessionData.mk none)).2.2.1
      (by decide),
    (handshake_auth
        (fun s => if s = "sess1" then some (SessionData.mk none) else none)
        (fun _ => none) ["https://app.example"] (some "https://app.example")
        "sess1" (SessionData.mk none)).1⟩

end TurboVets
